import Mathlib

/-!
# Verification of the busypenguin message/task/subtask state model

Shallow embedding of `busypenguin/classes.py`.  The mutable Python objects
become explicit state records; every method becomes a function from the old
state to the new state, together with the list of remote API calls it issues.
Fallible operations (Python list indexing, `+=` on `None`) return `Except`.

Modelling conventions:
* A Python value that may be `None` is an `Option`.
* `SlackClient.api_call` is external; `publish` returns the `ApiCall` payload
  it would send, and takes the identifier the remote side would answer a
  create with (`rid`) as a parameter.
* Elapsed durations are modelled in exact centiseconds (`Nat`), so the
  two-decimal rendering of the seconds field is exact and no floating-point
  rounding is involved.
* Python list indexing (negative indices allowed) is `pyIndex`.
-/

namespace Busypenguin

/-- One entry of the primary attachment's `fields` list:
the dict `{'title': ..., 'value': ..., 'short': ...}` built by `add_field`. -/
structure Field where
  title : Option String
  value : Option String
  short : Option Bool
deriving DecidableEq

/-- A Slack attachment record.  The primary attachment (`Message.main`) uses
every key; the supplementary attachments built by the library (the traceback
attachment) set only `color`, `title` and `text`. -/
structure Attachment where
  color : Option String
  title : Option String
  text : Option String
  fields : List Field
  callback_id : Option String
  actions : Option String
deriving DecidableEq

/-- The mutable state of a `Message` object: the primary attachment `main`,
the supplementary attachment list `extra`, and the remote timestamp `ts`
(`None` until the first successful publish). -/
structure MessageState where
  main : Attachment
  extra : List Attachment
  ts : Option String
deriving DecidableEq

/-- The API calls `Message.publish` can issue through the Slack client:
`chat.postMessage` (create) or `chat.update` (addressed by `ts`). -/
inductive ApiCall where
  | postMessage (channel : String) (attachments : List Attachment)
  | update (channel : String) (ts : String) (attachments : List Attachment)
deriving DecidableEq

/-- `Message.__init__`: fresh primary attachment, no extra attachments, no
remote timestamp. -/
def Message.init (color title text callback_id actions : Option String) :
    MessageState :=
  { main := { color, title, text, fields := [], callback_id, actions },
    extra := [], ts := none }

/-- Python keyword-argument overwrite: a non-`None` argument replaces the
stored value, `None` leaves it unchanged. -/
def overwrite {α : Type} (old new' : Option α) : Option α :=
  match new' with
  | none => old
  | some v => some v

/-- `Message.update`: overwrite each of color/title/text/actions of the
primary attachment when the argument is non-`None`. -/
def Message.update (s : MessageState)
    (color title text actions : Option String) : MessageState :=
  { s with main := { s.main with
      color := overwrite s.main.color color,
      title := overwrite s.main.title title,
      text := overwrite s.main.text text,
      actions := overwrite s.main.actions actions } }

/-- `Message.add_field`: append a field record, return the new state and the
index `len(fields) - 1` of the appended field. -/
def Message.add_field (s : MessageState)
    (title value : Option String) (short : Option Bool) : MessageState × Nat :=
  ({ s with main := { s.main with
       fields := s.main.fields ++ [{ title, value, short }] } },
   s.main.fields.length)

/-- Python list indexing: for a list of length `n`, index `i` addresses
position `i` when `0 ≤ i < n`, position `n + i` when `-n ≤ i < 0`, and raises
`IndexError` otherwise. -/
def pyIndex (n : Nat) (i : Int) : Option Nat :=
  if 0 ≤ i then
    if i < (n : Int) then some i.toNat else none
  else
    if 0 ≤ (n : Int) + i then some ((n : Int) + i).toNat else none

/-- Python errors the embedded operations can raise. -/
inductive PyErr where
  | IndexError
  | TypeError
deriving DecidableEq

/-- Replace the element at (normalized) position `i` by `g` of it; identity
when `i` is out of range. -/
def modifyAt {α : Type} (l : List α) (i : Nat) (g : α → α) : List α :=
  match l, i with
  | [], _ => []
  | x :: xs, 0 => g x :: xs
  | x :: xs, Nat.succ j => x :: modifyAt xs j g

/-- The effect of `update_field`'s loop body on the addressed field dict:
each non-`None` keyword argument overwrites the stored entry. -/
def Field.applyUpdate (f : Field) (title value : Option String)
    (short : Option Bool) : Field :=
  { title := overwrite f.title title,
    value := overwrite f.value value,
    short := overwrite f.short short }

/-- `Message.update_field`: for each non-`None` argument, assign into
`main['fields'][index]`.  When every argument is `None` the loop body never
runs, so the list is never indexed and no error can be raised; otherwise an
out-of-range `index` raises `IndexError`. -/
def Message.update_field (s : MessageState) (index : Int)
    (title value : Option String) (short : Option Bool) :
    Except PyErr MessageState :=
  if title = none ∧ value = none ∧ short = none then .ok s
  else
    match pyIndex s.main.fields.length index with
    | none => .error .IndexError
    | some i => .ok { s with main := { s.main with
        fields := modifyAt s.main.fields i
          (fun f => f.applyUpdate title value short) } }

/-- `Message.add_attachment`: append a supplementary attachment, return the
new state and the index of the appended record. -/
def Message.add_attachment (s : MessageState) (att : Attachment) :
    MessageState × Nat :=
  ({ s with extra := s.extra ++ [att] }, s.extra.length)

/-- `Message.update_attachment`: `self.extra[index] = attachment`, raising
`IndexError` when `index` is out of Python's valid range. -/
def Message.update_attachment (s : MessageState) (index : Int)
    (att : Attachment) : Except PyErr MessageState :=
  match pyIndex s.extra.length index with
  | none => .error .IndexError
  | some i => .ok { s with extra := s.extra.set i att }

/-- `Message.publish`: send `[main] + extra`.  The guard is Python's
`if not self.ts`, true when `ts` is `None` or the empty string; in that case
a `chat.postMessage` (create) is issued and the remote answer `rid` is stored
in `ts`; otherwise a `chat.update` addressed by the stored `ts` is issued and
the state is unchanged. -/
def Message.publish (channel rid : String) (s : MessageState) :
    MessageState × ApiCall :=
  let attachments := s.main :: s.extra
  match s.ts with
  | none => ({ s with ts := some rid }, .postMessage channel attachments)
  | some t =>
      if t = "" then ({ s with ts := some rid }, .postMessage channel attachments)
      else (s, .update channel t attachments)

/-- Python's `str.lower()` applied to the first character only, as in
`text[0].lower() + text[1:]` (the texts involved are ASCII, where Lean's
`Char.toLower` and Python's `str.lower` agree). -/
def lowerFirst (s : String) : String :=
  match s.data with
  | [] => ""
  | c :: cs => String.mk (c.toLower :: cs)

/-- Left-pad a string with the `'0'` fill character up to `width`, as the
Python format mini-language does for a `0`-flagged width on a non-negative
number. -/
def zpad (width : Nat) (s : String) : String :=
  if s.length < width then String.mk (List.replicate (width - s.length) '0') ++ s
  else s

/-- Two-digit rendering of a value below 100 (used for the two decimal
places). -/
def pad2 (n : Nat) : String :=
  if n < 10 then "0" ++ toString n else toString n

/-- Exact two-decimal rendering of `cs` centiseconds as seconds, e.g.
`formatFloat2 12 = "0.12"`: the `.2f` part of Python's `f"{seconds:02.02f}"`
on an input that is an exact multiple of a hundredth. -/
def formatFloat2 (cs : Nat) : String :=
  toString (cs / 100) ++ "." ++ pad2 (cs % 100)

/-- The suffix `f' (took {minutes:.0f}m {seconds:02.02f}s)'` appended by
`Task.__exit__`, for an elapsed duration of `cs` centiseconds:
`divmod(total_seconds, 60)` splits into whole minutes (`cs / 6000`, an exact
integer, so `:.0f` renders it as a plain decimal) and remaining seconds
(`cs % 6000` centiseconds); the seconds are rendered to two decimal places
and then zero-padded to the format's total width of 2. -/
def elapsedSuffix (cs : Nat) : String :=
  " (took " ++ toString (cs / 6000) ++ "m "
    ++ zpad 2 (formatFloat2 (cs % 6000)) ++ "s)"

/-- The mutable state of a `Task` object.  `text` is the normalized body
text (`None` when the constructor argument was `None` or empty); `message`
is the owned `Message`'s state; `done` is the explicit early-finish flag.
The notifier, timestamps and channel live outside the state: the channel and
the elapsed duration are passed to the operations that use them. -/
structure TaskState where
  text : Option String
  status_prefix : Bool
  message : MessageState
  done : Bool
deriving DecidableEq

/-- The normalization of the `text` argument in `Task.__init__`:
`text[0].lower() + text[1:] if text else None` (both `None` and the empty
string are falsy). -/
def Task.initText (text : Option String) : Option String :=
  match text with
  | none => none
  | some s => if s = "" then none else some (lowerFirst s)

/-- `Task.__init__`: store the normalized text and the flag, and build the
owned `Message`.  With the flag set, the message's body text is
`'Started ' + self.text` (or `None` when `self.text` is falsy); without it,
the message receives the constructor argument unchanged. -/
def Task.init (color title text callback_id actions : Option String)
    (sp : Bool) : TaskState :=
  let selfText := Task.initText text
  let msgText :=
    if sp then
      match selfText with
      | none => none
      | some t => some ("Started " ++ t)
    else text
  { text := selfText, status_prefix := sp,
    message := Message.init color title msgText callback_id actions,
    done := false }

/-- `Task.__enter__`: publish the initial message (the start timestamp is
recorded outside the modelled state). -/
def Task.enter (channel rid : String) (s : TaskState) : TaskState × ApiCall :=
  ({ s with message := (Message.publish channel rid s.message).1 },
   (Message.publish channel rid s.message).2)

/-- A propagating exception, as seen by an exit handler.  `trace` stands for
`''.join(traceback.format_exception(etype, value, tb))`, the formatted stack
trace produced by the external `traceback` module. -/
structure Exc where
  trace : String
deriving DecidableEq

/-- The supplementary attachment `Task.__exit__` builds for a propagating
exception. -/
def tbAttachment (e : Exc) : Attachment :=
  { color := some "danger",
    title := some "Previous task raised following exception:",
    text := some e.trace,
    fields := [], callback_id := none, actions := none }

/-- `Task.__exit__` for an elapsed duration of `durationCs` centiseconds and
a propagating exception `exc` (`none` on a normal exit).  Returns the new
task state, the API calls issued, and the handler's return value as seen by
the `with` statement (`False` = the exception is not suppressed; the handler
always falls off the end, i.e. returns `None`).  The first statement on the
text, `self.text += ...`, raises `TypeError` when `self.text` is `None`,
before anything is published. -/
def Task.exit (channel rid : String) (durationCs : Nat) (exc : Option Exc)
    (s : TaskState) : Except PyErr (TaskState × List ApiCall × Bool) :=
  match s.text with
  | none => .error .TypeError
  | some t =>
    let t' := t ++ elapsedSuffix durationCs
    let s' : TaskState := { s with text := some t' }
    if s'.done then
      .ok ({ s' with message := (Message.publish channel rid s'.message).1 },
           [(Message.publish channel rid s'.message).2], false)
    else
      match exc with
      | some e =>
        let newText := if s'.status_prefix ∧ t' ≠ "" then "Failed " ++ t' else t'
        let m1 := Message.update s'.message (some "danger") none (some newText) none
        let m2 := (Message.add_attachment m1 (tbAttachment e)).1
        .ok ({ s' with message := (Message.publish channel rid m2).1 },
             [(Message.publish channel rid m2).2], false)
      | none =>
        let newText := if s'.status_prefix ∧ t' ≠ "" then "Finished " ++ t' else t'
        let m1 := Message.update s'.message (some "good") none (some newText) none
        .ok ({ s' with message := (Message.publish channel rid m1).1 },
             [(Message.publish channel rid m1).2], false)

/-- The mutable state of a `Subtask` object (minus the field index, which is
assigned on scope entry and threaded explicitly).  `glyph` models the
source's status-marker attribute, initially the pending arrow. -/
structure SubtaskState where
  text : String
  short : Bool
  glyph : String
deriving DecidableEq

/-- `Subtask.__init__`. -/
def Subtask.init (text : String) (short : Bool) : SubtaskState :=
  { text, short, glyph := ":arrow_right: " }

/-- `Subtask.__enter__`: reserve a field in the owning task's message with
value `glyph + text`, remember its index, and publish.  Returns the
index, the new message state and the issued API call (the subtask's own
state is unchanged). -/
def Subtask.enter (channel rid : String) (st : SubtaskState)
    (m : MessageState) : Nat × MessageState × ApiCall :=
  let m1 := (Message.add_field m none (some (st.glyph ++ st.text)) (some st.short)).1
  let idx := (Message.add_field m none (some (st.glyph ++ st.text)) (some st.short)).2
  (idx, (Message.publish channel rid m1).1, (Message.publish channel rid m1).2)

/-- `Subtask.__exit__` for the field index `idx` recorded at entry: set the
glyph to the failure or success marker, rewrite the reserved field's value to
`glyph + text`, publish.  The final `Bool` is the handler's return value as
seen by the `with` statement (`False`: a propagating exception is not
suppressed). -/
def Subtask.exit (channel rid : String) (exc : Option Exc) (idx : Nat)
    (st : SubtaskState) (m : MessageState) :
    Except PyErr (SubtaskState × MessageState × ApiCall × Bool) :=
  let g := if exc.isSome then ":x: " else ":heavy_check_mark: "
  let st' := { st with glyph := g }
  match Message.update_field m ((idx : Int)) none (some (g ++ st'.text)) none with
  | .error e => .error e
  | .ok m1 =>
    .ok (st', (Message.publish channel rid m1).1,
         (Message.publish channel rid m1).2, false)

/-! ## Helper lemmas -/

theorem overwrite_none {α : Type} (x : Option α) : overwrite x none = x := rfl

theorem overwrite_eq_none {α : Type} (old nw : Option α)
    (h : overwrite old nw = none) : old = none := by
  cases nw with
  | none => exact h
  | some v => simp [overwrite] at h

theorem length_modifyAt {α : Type} (l : List α) (i : Nat) (g : α → α) :
    (modifyAt l i g).length = l.length := by
  induction l generalizing i with
  | nil => rfl
  | cons x xs ih =>
    cases i with
    | zero => rfl
    | succ j => simp [modifyAt, ih]

theorem getElem?_modifyAt_self {α : Type} (l : List α) (i : Nat) (g : α → α) :
    (modifyAt l i g)[i]? = (l[i]?).map g := by
  induction l generalizing i with
  | nil => simp [modifyAt]
  | cons x xs ih =>
    cases i with
    | zero => simp [modifyAt]
    | succ j => simpa [modifyAt] using ih j

theorem getElem?_modifyAt_ne {α : Type} (l : List α) (i j : Nat) (g : α → α)
    (h : j ≠ i) : (modifyAt l i g)[j]? = l[j]? := by
  induction l generalizing i j with
  | nil => simp [modifyAt]
  | cons x xs ih =>
    cases i with
    | zero =>
      cases j with
      | zero => exact absurd rfl h
      | succ k => simp [modifyAt]
    | succ i' =>
      cases j with
      | zero => simp [modifyAt]
      | succ k => simpa [modifyAt] using ih i' k (by omega)

theorem pyIndex_ofNat (n j : Nat) (h : j < n) :
    pyIndex n ((j : Int)) = some j := by
  unfold pyIndex
  rw [if_pos (by omega : (0 : Int) ≤ (j : Int)),
    if_pos (by omega : (j : Int) < (n : Int))]
  simp

theorem pyIndex_isSome_iff (n : Nat) (i : Int) :
    (pyIndex n i).isSome = true ↔ (-(n : Int) ≤ i ∧ i < (n : Int)) := by
  unfold pyIndex
  split_ifs with h1 h2 h3 <;> simp <;> omega

theorem publish_shape (ch rid : String) (s : MessageState) :
    (Message.publish ch rid s).1.main = s.main ∧
    (Message.publish ch rid s).1.extra = s.extra ∧
    ((Message.publish ch rid s).2 = .postMessage ch (s.main :: s.extra) ∨
      ∃ t, (Message.publish ch rid s).2 = .update ch t (s.main :: s.extra)) := by
  rcases hts : s.ts with _ | t
  · simp [Message.publish, hts]
  · by_cases ht : t = ""
    · simp [Message.publish, hts, ht]
    · refine ⟨?_, ?_, Or.inr ⟨t, ?_⟩⟩ <;> simp [Message.publish, hts, ht]

theorem publish_fst_main (ch rid : String) (s : MessageState) :
    (Message.publish ch rid s).1.main = s.main := (publish_shape ch rid s).1

theorem publish_fst_extra (ch rid : String) (s : MessageState) :
    (Message.publish ch rid s).1.extra = s.extra := (publish_shape ch rid s).2.1

theorem publish_snd_shape (ch rid : String) (s : MessageState) :
    (Message.publish ch rid s).2 = .postMessage ch (s.main :: s.extra) ∨
      ∃ t, (Message.publish ch rid s).2 = .update ch t (s.main :: s.extra) :=
  (publish_shape ch rid s).2.2

theorem publish_call_carries_state (ch rid : String) (m : MessageState) :
    (Message.publish ch rid m).2 =
      .postMessage ch ((Message.publish ch rid m).1.main
        :: (Message.publish ch rid m).1.extra) ∨
    ∃ t, (Message.publish ch rid m).2 =
      .update ch t ((Message.publish ch rid m).1.main
        :: (Message.publish ch rid m).1.extra) := by
  rcases publish_snd_shape ch rid m with h | ⟨t, h⟩
  · exact Or.inl (by rw [h, publish_fst_main, publish_fst_extra])
  · exact Or.inr ⟨t, by rw [h, publish_fst_main, publish_fst_extra]⟩

theorem elapsedSuffix_length_pos (d : Nat) : 0 < (elapsedSuffix d).length := by
  unfold elapsedSuffix
  rw [String.length_append]
  rw [show ("s)" : String).length = 2 from rfl]
  omega

theorem append_elapsedSuffix_ne_empty (t : String) (d : Nat) :
    t ++ elapsedSuffix d ≠ "" := by
  intro h
  have hl := congrArg String.length h
  rw [String.length_append, show ("" : String).length = 0 from rfl] at hl
  have h2 := elapsedSuffix_length_pos d
  omega

theorem update_field_all_none (s : MessageState) (i : Int) :
    Message.update_field s i none none none = .ok s := by
  simp [Message.update_field]

theorem update_field_eq_modify (s : MessageState) (j : Nat)
    (hj : j < s.main.fields.length) (ti v : Option String) (sh : Option Bool)
    (hsome : ¬(ti = none ∧ v = none ∧ sh = none)) :
    Message.update_field s ((j : Int)) ti v sh =
      .ok { s with main := { s.main with
        fields := modifyAt s.main.fields j
          (fun f => f.applyUpdate ti v sh) } } := by
  simp only [Message.update_field, if_neg hsome,
    pyIndex_ofNat s.main.fields.length j hj]

/-- The body text the primary attachment holds after a `Task.__exit__`, for
stating concrete evaluations (`none` when the exit raised). -/
def exitMainText (r : Except PyErr (TaskState × List ApiCall × Bool)) :
    Option String :=
  match r with
  | .ok (s, _, _) => s.message.main.text
  | .error _ => none

/-! ## Claim theorems -/

/-- C1: the first `publish` (no remote identifier recorded) issues a
`chat.postMessage` create carrying the primary attachment followed by the
supplementary attachments, and stores the identifier returned by the remote
side; every `publish` once a (non-empty) identifier is stored issues a
`chat.update` addressed by exactly that identifier with the same full
attachment list and leaves the state — in particular the stored identifier —
unchanged; and no other `Message` operation touches the stored identifier.
Hence repeated `publish` performs one create followed only by updates
addressed by the identifier stored by the create. -/
theorem publish_create_then_update (ch rid : String) (s : MessageState) :
    (s.ts = none →
      Message.publish ch rid s =
        ({ s with ts := some rid }, .postMessage ch (s.main :: s.extra))) ∧
    (∀ t : String, s.ts = some t → t ≠ "" →
      Message.publish ch rid s = (s, .update ch t (s.main :: s.extra))) ∧
    (∀ co ti te ac, (Message.update s co ti te ac).ts = s.ts) ∧
    (∀ ti v sh, (Message.add_field s ti v sh).1.ts = s.ts) ∧
    (∀ i ti v sh m', Message.update_field s i ti v sh = .ok m' → m'.ts = s.ts) ∧
    (∀ a, (Message.add_attachment s a).1.ts = s.ts) ∧
    (∀ i a m', Message.update_attachment s i a = .ok m' → m'.ts = s.ts) := by
  refine ⟨?_, ?_, fun _ _ _ _ => rfl, fun _ _ _ => rfl, ?_, fun _ => rfl, ?_⟩
  · intro h0; simp [Message.publish, h0]
  · intro t hts htne; simp [Message.publish, hts, htne]
  · intro i ti v sh m' h
    simp only [Message.update_field] at h
    split at h
    · cases h; rfl
    · split at h
      · simp at h
      · cases h; rfl
  · intro i a m' h
    simp only [Message.update_attachment] at h
    split at h
    · simp at h
    · cases h; rfl

theorem publish_create_then_update_witness :
    Message.publish "C" "1700.1" (Message.init (some "warning") none none none none) =
      ({ Message.init (some "warning") none none none none with ts := some "1700.1" },
        .postMessage "C" [(Message.init (some "warning") none none none none).main]) ∧
    Message.publish "C" "9.9"
        { Message.init (some "warning") none none none none with ts := some "1700.1" } =
      ({ Message.init (some "warning") none none none none with ts := some "1700.1" },
        .update "C" "1700.1"
          [(Message.init (some "warning") none none none none).main]) :=
  ⟨(publish_create_then_update "C" "1700.1"
      (Message.init (some "warning") none none none none)).1 rfl,
   (publish_create_then_update "C" "9.9"
      { Message.init (some "warning") none none none none with
        ts := some "1700.1" }).2.1 "1700.1" rfl (by decide)⟩

/-- C2: evaluation of the embedded code at the claim's input.  A Task with
`text="build the project"` and the status-prefix flag set publishes
`"Started build the project"` on entry, as the claim states; but on a normal
exit with a measured duration of 0.12s the appended suffix is
`" (took 0m 0.12s)"`, not `" (took 0m 00.12s)"`: the format
`f"{seconds:02.02f}"` zero-pads only to a total width of 2, which any
two-decimal rendering already exceeds, so the seconds are never zero-padded
to two integer digits. -/
theorem task_suffix_format_eval :
    (Task.enter "C" "1" (Task.init (some "warning") (some "Build")
        (some "build the project") none none true)).1.message.main.text =
      some "Started build the project" ∧
    elapsedSuffix 12 = " (took 0m 0.12s)" ∧
    elapsedSuffix 12 ≠ " (took 0m 00.12s)" ∧
    exitMainText (Task.exit "C" "1" 12 none
        (Task.enter "C" "1" (Task.init (some "warning") (some "Build")
          (some "build the project") none none true)).1) =
      some "Finished build the project (took 0m 0.12s)" := by
  refine ⟨rfl, rfl, by decide, rfl⟩

/-- C5 is false as stated: after a single `add_field` (whose only returned
index is 0), `update_field` at index `-1` — never returned by `add_field` —
succeeds, because Python list indexing accepts negative indices; and
`update_field` with an out-of-range index but all attributes `None` also
succeeds, because the assignment loop never subscripts the list. -/
theorem update_field_index_counterexample :
    (Message.add_field (Message.init none none none none none)
      none (some "v") none).2 = 0 ∧
    ((-1 : Int) ≠ ((Message.add_field (Message.init none none none none none)
      none (some "v") none).2 : Int)) ∧
    (Message.update_field
      (Message.add_field (Message.init none none none none none)
        none (some "v") none).1
      (-1) none (some "x") none).isOk = true ∧
    (Message.update_field (Message.init none none none none none)
      5 none none none).isOk = true := by
  refine ⟨rfl, by decide, ?_, ?_⟩ <;> decide

/-- C5 (amended): `update_field` fails (with `IndexError`) iff at least one
attribute is provided and the index is outside Python's valid range
`[-n, n-1]` for the current field count `n`; `update_attachment` fails iff
the index is outside `[-m, m-1]` for the attachment count `m`.  Every index
previously returned by the corresponding `add*` call (a natural `j` below
the current count) therefore succeeds, but the converse of the claim fails:
in-range negative indices, and all-`None` field updates at any index,
succeed as well. -/
theorem update_field_out_of_range_iff (s : MessageState) (i : Int)
    (ti v : Option String) (sh : Option Bool) (att : Attachment) :
    ((Message.update_field s i ti v sh).isOk = true ↔
      ((ti = none ∧ v = none ∧ sh = none) ∨
        (-(s.main.fields.length : Int) ≤ i ∧
          i < (s.main.fields.length : Int)))) ∧
    ((Message.update_attachment s i att).isOk = true ↔
      (-(s.extra.length : Int) ≤ i ∧ i < (s.extra.length : Int))) ∧
    (∀ j : Nat, j < s.main.fields.length →
      (Message.update_field s (j : Int) ti v sh).isOk = true) ∧
    (∀ j : Nat, j < s.extra.length →
      (Message.update_attachment s (j : Int) att).isOk = true) := by
  have hf := pyIndex_isSome_iff s.main.fields.length i
  have ha := pyIndex_isSome_iff s.extra.length i
  refine ⟨?_, ?_, ?_, ?_⟩
  · by_cases hall : ti = none ∧ v = none ∧ sh = none
    · simp [Message.update_field, Except.isOk, Except.toBool,
        hall.1, hall.2.1, hall.2.2]
    · simp only [Message.update_field, if_neg hall]
      rcases hpy : pyIndex s.main.fields.length i with _ | j
        <;> rw [hpy] at hf <;> simp at hf
      · simp only [Except.isOk, Except.toBool, Bool.false_eq_true, false_iff]
        intro h
        rcases h with h | h
        · exact hall h
        · omega
      · simp [Except.isOk, Except.toBool, hall, hf]
  · rcases hpy : pyIndex s.extra.length i with _ | j
      <;> rw [hpy] at ha <;> simp at ha
    · simp only [Message.update_attachment, hpy, Except.isOk, Except.toBool,
        Bool.false_eq_true, false_iff]
      intro h
      omega
    · simp [Message.update_attachment, hpy, Except.isOk, Except.toBool, ha]
  · intro j hj
    by_cases hall : ti = none ∧ v = none ∧ sh = none
    · obtain ⟨h1, h2, h3⟩ := hall; subst h1; subst h2; subst h3
      simp [update_field_all_none, Except.isOk, Except.toBool]
    · rw [update_field_eq_modify s j hj ti v sh hall]; rfl
  · intro j hj
    simp [Message.update_attachment, pyIndex_ofNat s.extra.length j hj,
      Except.isOk, Except.toBool]

theorem update_field_out_of_range_iff_witness :
    (Message.update_field
      (Message.add_field (Message.init none none none none none)
        none (some "v") none).1
      (-1) (some "T") none none).isOk = true :=
  ((update_field_out_of_range_iff
      (Message.add_field (Message.init none none none none none)
        none (some "v") none).1
      (-1) (some "T") none none
      (Message.init none none none none none).main).1).mpr
    (Or.inr (by decide))

/-- C6: for any message state (hence after any sequence of `addField` calls)
and any previously returned index `j`, `update_field` overwrites only the
provided (non-`None`) attributes of field `j`: the field list keeps its
length and order, every other field is untouched, and the primary
attachment's color, title, text, callback id and actions as well as the
supplementary-attachment list are unchanged. -/
theorem update_field_frame (s : MessageState) (j : Nat)
    (hj : j < s.main.fields.length) (ti v : Option String) (sh : Option Bool) :
    ∃ m', Message.update_field s (j : Int) ti v sh = .ok m' ∧
      m'.main.fields.length = s.main.fields.length ∧
      m'.main.fields[j]? = (s.main.fields[j]?).map
        (fun f => f.applyUpdate ti v sh) ∧
      (∀ k : Nat, k ≠ j → m'.main.fields[k]? = s.main.fields[k]?) ∧
      m'.main.color = s.main.color ∧
      m'.main.title = s.main.title ∧
      m'.main.text = s.main.text ∧
      m'.main.callback_id = s.main.callback_id ∧
      m'.main.actions = s.main.actions ∧
      m'.extra = s.extra ∧ m'.ts = s.ts := by
  by_cases hall : ti = none ∧ v = none ∧ sh = none
  · obtain ⟨h1, h2, h3⟩ := hall; subst h1; subst h2; subst h3
    refine ⟨s, update_field_all_none s _, rfl, ?_, fun k _ => rfl,
      rfl, rfl, rfl, rfl, rfl, rfl, rfl⟩
    cases s.main.fields[j]? <;> rfl
  · refine ⟨_, update_field_eq_modify s j hj ti v sh hall,
      length_modifyAt _ _ _, getElem?_modifyAt_self _ _ _,
      fun k hk => getElem?_modifyAt_ne _ _ _ _ hk,
      rfl, rfl, rfl, rfl, rfl, rfl, rfl⟩

theorem update_field_frame_witness :
    0 < (Message.add_field (Message.init none none none none none)
        (some "ft") (some "fv") (some true)).1.main.fields.length ∧
    ∃ m', Message.update_field
        (Message.add_field (Message.init none none none none none)
          (some "ft") (some "fv") (some true)).1
        ((0 : Nat) : Int) (some "T2") none none = .ok m' ∧ m'.extra = [] := by
  refine ⟨by decide, ?_⟩
  obtain ⟨m', h1, _, _, _, _, _, _, _, _, hex, _⟩ :=
    update_field_frame
      (Message.add_field (Message.init none none none none none)
        (some "ft") (some "fv") (some true)).1
      0 (by decide) (some "T2") none none
  exact ⟨m', h1, hex⟩

/-- C10: passing `None` is indistinguishable from omitting an argument:
`update` and `update_field` with all arguments `None` are the identity on
the message state, and no attribute of the primary attachment or of a field
can go back from a non-`None` value to `None` through them. -/
theorem update_none_identity (s : MessageState) (i : Int)
    (co ti te ac fti fv : Option String) (fsh : Option Bool) :
    Message.update s none none none none = s ∧
    Message.update_field s i none none none = .ok s ∧
    ((Message.update s co ti te ac).main.color = none → s.main.color = none) ∧
    ((Message.update s co ti te ac).main.title = none → s.main.title = none) ∧
    ((Message.update s co ti te ac).main.text = none → s.main.text = none) ∧
    ((Message.update s co ti te ac).main.actions = none → s.main.actions = none) ∧
    (∀ m' : MessageState, Message.update_field s i fti fv fsh = .ok m' →
      ∀ (k : Nat) (f f' : Field), s.main.fields[k]? = some f →
        m'.main.fields[k]? = some f' →
          (f'.title = none → f.title = none) ∧
          (f'.value = none → f.value = none) ∧
          (f'.short = none → f.short = none)) := by
  refine ⟨rfl, update_field_all_none s i,
    fun h => overwrite_eq_none _ _ h, fun h => overwrite_eq_none _ _ h,
    fun h => overwrite_eq_none _ _ h, fun h => overwrite_eq_none _ _ h, ?_⟩
  intro m' hm' k f f' hf hf'
  by_cases hall : fti = none ∧ fv = none ∧ fsh = none
  · obtain ⟨h1, h2, h3⟩ := hall; subst h1; subst h2; subst h3
    rw [update_field_all_none s i] at hm'
    cases hm'
    rw [hf] at hf'; cases hf'
    exact ⟨fun h => h, fun h => h, fun h => h⟩
  · simp only [Message.update_field, if_neg hall] at hm'
    rcases hpy : pyIndex s.main.fields.length i with _ | idx
      <;> rw [hpy] at hm'
    · simp at hm'
    · simp only [Except.ok.injEq] at hm'
      subst hm'
      by_cases hk : k = idx
      · subst hk
        rw [show ({ s with main := { s.main with
              fields := modifyAt s.main.fields k
                (fun f => f.applyUpdate fti fv fsh) } } :
            MessageState).main.fields = modifyAt s.main.fields k
              (fun f => f.applyUpdate fti fv fsh) from rfl,
          getElem?_modifyAt_self, hf] at hf'
        rw [show (Option.map (fun f => f.applyUpdate fti fv fsh) (some f))
            = some (f.applyUpdate fti fv fsh) from rfl] at hf'
        injection hf' with hf'
        subst hf'
        exact ⟨fun h => overwrite_eq_none _ _ h,
          fun h => overwrite_eq_none _ _ h,
          fun h => overwrite_eq_none _ _ h⟩
      · rw [show ({ s with main := { s.main with
              fields := modifyAt s.main.fields idx
                (fun f => f.applyUpdate fti fv fsh) } } :
            MessageState).main.fields = modifyAt s.main.fields idx
              (fun f => f.applyUpdate fti fv fsh) from rfl,
          getElem?_modifyAt_ne _ _ _ _ hk, hf] at hf'
        cases hf'
        exact ⟨fun h => h, fun h => h, fun h => h⟩

theorem update_none_identity_witness :
    Message.update_field (Message.init (some "c") none none none none)
      3 none none none = .ok (Message.init (some "c") none none none none) :=
  (update_none_identity (Message.init (some "c") none none none none)
    3 none none none none none none none).2.1

/-- C3: when an error propagates out of a `Task` scope and `done` is not
set, the exit handler sets the color to `'danger'`; sets the text to
`"Failed "` + the stored text (with the elapsed suffix) exactly when the
status-prefix flag is set — the suffixed text is never empty, so the
text-present half of the source's condition always holds — and otherwise
leaves the text as the stored text plus the suffix; appends exactly one
supplementary attachment carrying the failure color and the formatted stack
trace of the propagated error; publishes the result; and returns `False` to
the `with` statement, so the error is never suppressed. -/
theorem task_exit_error_annotates (ch rid : String) (d : Nat) (e : Exc)
    (s : TaskState) (t : String) (hdone : s.done = false)
    (ht : s.text = some t) :
    ∃ s' c, Task.exit ch rid d (some e) s = .ok (s', [c], false) ∧
      s'.message.main.color = some "danger" ∧
      s'.message.main.text =
        some (if s.status_prefix then "Failed " ++ (t ++ elapsedSuffix d)
          else t ++ elapsedSuffix d) ∧
      s'.message.extra = s.message.extra ++ [tbAttachment e] ∧
      (tbAttachment e).color = some "danger" ∧
      (tbAttachment e).text = some e.trace ∧
      s'.message.main.title = s.message.main.title ∧
      s'.message.main.fields = s.message.main.fields ∧
      (c = .postMessage ch (s'.message.main :: s'.message.extra) ∨
        ∃ tsv, c = .update ch tsv (s'.message.main :: s'.message.extra)) := by
  obtain ⟨stext, sp, sm, sd⟩ := s
  dsimp only at ht hdone
  subst ht; subst hdone
  have hne : t ++ elapsedSuffix d ≠ "" := append_elapsedSuffix_ne_empty t d
  refine ⟨_, _, rfl, ?_, ?_, ?_, rfl, rfl, ?_, ?_, ?_⟩
  · simp [publish_fst_main, Message.add_attachment, Message.update, overwrite]
  · simp only [publish_fst_main, Message.add_attachment, Message.update,
      overwrite]
    simp [hne]
  · simp [publish_fst_extra, Message.add_attachment, Message.update]
  · simp [publish_fst_main, Message.add_attachment, Message.update, overwrite]
  · simp [publish_fst_main, Message.add_attachment, Message.update, overwrite]
  · exact publish_call_carries_state ch rid _

theorem task_exit_error_annotates_witness :
    ∃ s' c, Task.exit "C" "1" 0 (some ⟨"TRACE"⟩)
        ⟨some "x", true, Message.init none none none none none, false⟩ =
      .ok (s', [c], false) ∧ s'.message.main.color = some "danger" := by
  obtain ⟨s', c, h1, h2, _⟩ := task_exit_error_annotates "C" "1" 0 ⟨"TRACE"⟩
    ⟨some "x", true, Message.init none none none none none, false⟩ "x" rfl rfl
  exact ⟨s', c, h1, h2⟩

/-- C4: a Subtask entered and then exited ends with the success glyph
(normal exit) or the failure glyph (propagating error) followed by its text
as the reserved field's value; the field update is followed by a publish
whose payload carries the updated message content; and the exit handler
returns `False` to the `with` statement, so a propagating error remains
observable by the Subtask's caller. -/
theorem subtask_exit_glyph (ch r1 r2 : String) (st0 : SubtaskState)
    (m0 : MessageState) (exc : Option Exc) :
    ∃ st2 m2 c,
      Subtask.exit ch r2 exc (Subtask.enter ch r1 st0 m0).1 st0
          (Subtask.enter ch r1 st0 m0).2.1 = .ok (st2, m2, c, false) ∧
      st2.glyph = (if exc.isSome then ":x: " else ":heavy_check_mark: ") ∧
      st2.text = st0.text ∧
      m2.main.fields[(Subtask.enter ch r1 st0 m0).1]? =
        some ⟨none, some (st2.glyph ++ st0.text), some st0.short⟩ ∧
      (c = .postMessage ch (m2.main :: m2.extra) ∨
        ∃ tsv, c = .update ch tsv (m2.main :: m2.extra)) := by
  set g := (if exc.isSome then ":x: " else ":heavy_check_mark: ") with hg
  have hidx : (Subtask.enter ch r1 st0 m0).1 = m0.main.fields.length := rfl
  have hmain : (Subtask.enter ch r1 st0 m0).2.1.main =
      { m0.main with fields := m0.main.fields ++
        [⟨none, some (st0.glyph ++ st0.text), some st0.short⟩] } := by
    simpa [Subtask.enter, Message.add_field] using
      publish_fst_main ch r1 (Message.add_field m0 none
        (some (st0.glyph ++ st0.text)) (some st0.short)).1
  have hlen : (Subtask.enter ch r1 st0 m0).1 <
      (Subtask.enter ch r1 st0 m0).2.1.main.fields.length := by
    rw [hidx, hmain]
    simp
  have hupd := update_field_eq_modify (Subtask.enter ch r1 st0 m0).2.1
    (Subtask.enter ch r1 st0 m0).1 hlen none (some (g ++ st0.text))
    none (by simp)
  refine ⟨{ st0 with glyph := g },
    (Message.publish ch r2 { (Subtask.enter ch r1 st0 m0).2.1 with
      main := { (Subtask.enter ch r1 st0 m0).2.1.main with
        fields := modifyAt (Subtask.enter ch r1 st0 m0).2.1.main.fields
          (Subtask.enter ch r1 st0 m0).1
          (fun f => f.applyUpdate none (some (g ++ st0.text)) none) } }).1,
    (Message.publish ch r2 { (Subtask.enter ch r1 st0 m0).2.1 with
      main := { (Subtask.enter ch r1 st0 m0).2.1.main with
        fields := modifyAt (Subtask.enter ch r1 st0 m0).2.1.main.fields
          (Subtask.enter ch r1 st0 m0).1
          (fun f => f.applyUpdate none (some (g ++ st0.text)) none) } }).2,
    ?_, rfl, rfl, ?_, ?_⟩
  · simp only [Subtask.exit, hupd]
  · simp only [publish_fst_main, getElem?_modifyAt_self, hmain, hidx,
      List.getElem?_concat_length]
    rfl
  · exact publish_call_carries_state ch r2 _

/-- C7 is false as stated: with the status-prefix flag off and
`text="Custom status"`, no Started/Finished/Failed prefix is ever added, but
the text published at exit is not the entry text plus the elapsed suffix:
the constructor stored a first-character-lowercased copy, the entry message
kept the original capitalization, and the exit overwrites the published text
with the lowercased copy plus the suffix. -/
theorem task_no_prefix_counterexample :
    (Task.enter "C" "1" (Task.init (some "warning") none
        (some "Custom status") none none false)).1.message.main.text =
      some "Custom status" ∧
    exitMainText (Task.exit "C" "1" 0 none
        (Task.enter "C" "1" (Task.init (some "warning") none
          (some "Custom status") none none false)).1) =
      some "custom status (took 0m 0.00s)" ∧
    some ("Custom status" ++ elapsedSuffix 0) ≠
      some "custom status (took 0m 0.00s)" := by
  refine ⟨rfl, rfl, by decide⟩

/-- C7 (amended): with the status-prefix flag off, no
Started/Finished/Failed prefix is ever added: the entry publishes the
constructor's text argument unchanged, and on either kind of exit the
published text is exactly the construction-normalized stored text (first
character lowercased) with the elapsed suffix appended — so besides the
suffix, the one lifecycle change to the published text is the lowercasing
of its first character. -/
theorem task_no_prefix_when_disabled (ch r1 r2 : String)
    (c ti cb ac : Option String) (tx : String) (htx : tx ≠ "")
    (d : Nat) (exc : Option Exc) :
    (Task.enter ch r1
        (Task.init c ti (some tx) cb ac false)).1.message.main.text =
      some tx ∧
    ∃ s2 calls, Task.exit ch r2 d exc
        (Task.enter ch r1 (Task.init c ti (some tx) cb ac false)).1 =
      .ok (s2, calls, false) ∧
      s2.message.main.text = some (lowerFirst tx ++ elapsedSuffix d) := by
  refine ⟨rfl, ?_⟩
  cases exc with
  | none =>
    simp only [Task.exit, Task.enter, Task.init, Task.initText, if_neg htx]
    refine ⟨_, _, rfl, ?_⟩
    simp [publish_fst_main, Message.update, overwrite]
  | some e =>
    simp only [Task.exit, Task.enter, Task.init, Task.initText, if_neg htx]
    refine ⟨_, _, rfl, ?_⟩
    simp [publish_fst_main, Message.add_attachment, Message.update, overwrite]

theorem task_no_prefix_when_disabled_witness :
    ∃ s2 calls, Task.exit "C" "2" 5 none
        (Task.enter "C" "1" (Task.init (some "w") none (some "Custom status")
          none none false)).1 = .ok (s2, calls, false) ∧
      s2.message.main.text =
        some (lowerFirst "Custom status" ++ elapsedSuffix 5) :=
  (task_no_prefix_when_disabled "C" "1" "2" (some "w") none none none
    "Custom status" (by decide) 5 none).2

/-- C8: with the `done` flag set at scope exit, the handler appends the
elapsed suffix to the Task's stored text and republishes the owned Message
with its content (primary attachment and supplementary-attachment list)
entirely unchanged — no color change, no Finished/Failed prefix, no added
attachment — regardless of whether an error propagated; the handler returns
`False`, so an error would still propagate. -/
theorem task_done_exit_frame (ch rid : String) (d : Nat) (exc : Option Exc)
    (s : TaskState) (t : String) (hdone : s.done = true)
    (ht : s.text = some t) :
    ∃ s' c, Task.exit ch rid d exc s = .ok (s', [c], false) ∧
      s'.text = some (t ++ elapsedSuffix d) ∧
      s'.message.main = s.message.main ∧
      s'.message.extra = s.message.extra ∧
      s'.status_prefix = s.status_prefix ∧
      s'.done = true ∧
      (c = .postMessage ch (s.message.main :: s.message.extra) ∨
        ∃ tsv, c = .update ch tsv (s.message.main :: s.message.extra)) := by
  obtain ⟨stext, sp, sm, sd⟩ := s
  dsimp only at ht hdone
  subst ht; subst hdone
  exact ⟨_, _, rfl, rfl, publish_fst_main ch rid sm, publish_fst_extra ch rid sm,
    rfl, rfl, publish_snd_shape ch rid sm⟩

theorem task_done_exit_frame_witness :
    ∃ s' c, Task.exit "C" "1" 3 (some ⟨"TB"⟩)
        ⟨some "x", true, Message.init none none none none none, true⟩ =
      .ok (s', [c], false) ∧ s'.text = some ("x" ++ elapsedSuffix 3) := by
  obtain ⟨s', c, h1, h2, _⟩ := task_done_exit_frame "C" "1" 3 (some ⟨"TB"⟩)
    ⟨some "x", true, Message.init none none none none none, true⟩ "x" rfl rfl
  exact ⟨s', c, h1, h2⟩

/-- C9: constructing a Task with `text=None` or with the empty string stores
no text, and scope exit raises `TypeError` exactly when the stored text is
`None` — the `self.text += suffix` statement runs before anything is
published, and the error result carries no API call; with a non-empty text
the constructor stores its first-character-lowercased form and the exit
never raises this way.  A clean scope exit therefore requires a non-empty
text at construction. -/
theorem task_exit_requires_text (ch rid : String) (d : Nat)
    (exc : Option Exc) :
    Task.initText none = none ∧
    Task.initText (some "") = none ∧
    (∀ tx : String, tx ≠ "" →
      Task.initText (some tx) = some (lowerFirst tx)) ∧
    (∀ s : TaskState, Task.exit ch rid d exc s = .error .TypeError ↔
      s.text = none) := by
  refine ⟨rfl, rfl, fun tx htx => by simp [Task.initText, htx], fun s => ?_⟩
  obtain ⟨stext, sp, sm, sd⟩ := s
  cases stext with
  | none => simp [Task.exit]
  | some t => cases sd <;> cases exc <;> simp [Task.exit]

theorem task_exit_requires_text_witness :
    Task.exit "C" "1" 7 none
      ⟨none, true, Message.init none none none none none, false⟩ =
      .error .TypeError :=
  ((task_exit_requires_text "C" "1" 7 none).2.2.2
    ⟨none, true, Message.init none none none none none, false⟩).mpr rfl

end Busypenguin
